import Mathlib

/-!
Shallow embedding of the weighted topic selection and feedback-redistribution
engine of the micro-learning-database repository.

The definitions below are translated from `src/data/weighted-selector.js`
(class `WeightedSelector`), `manager.js` (class `LearningNodeManager`, the
storage collaborator) and the business-logic orchestrator (method
`handleLessonComplete`).  JavaScript numbers are modelled as `ℤ` where the
source stores integers (weights, mastery percentages, millisecond
timestamps) and as `ℚ` where the source computes fractional multipliers.
Absent object fields are modelled with `Option`; the JavaScript `x || d`
idiom (which also replaces a present `0` or empty string by the default) is
modelled explicitly by `jsOr` / `jsOrStr`.  `Math.random()` is modelled by
an explicit parameter `r : ℚ` with `0 ≤ r < 1`, and the current time by an
explicit parameter `now : ℤ`.
-/

namespace MicroLearn

/-- JavaScript `x || d` on an optional numeric field: both an absent field
and a present `0` are falsy and fall back to the default. -/
def jsOr (o : Option ℤ) (d : ℤ) : ℤ :=
  match o with
  | none => d
  | some v => if v = 0 then d else v

/-- JavaScript `s || d` on an optional string field: both an absent field
and the empty string are falsy and fall back to the default. -/
def jsOrStr (o : Option String) (d : String) : String :=
  match o with
  | none => d
  | some s => if s = "" then d else s

/-- JavaScript `Math.round`: round half toward positive infinity. -/
def jsRound (q : ℚ) : ℤ := ⌊q + 1/2⌋

/-- Metadata bag of a learning node; only `base_importance` is read by the
selector (`calculateBaseImportance`). -/
structure NodeMetadata where
  base_importance : Option ℚ
  deriving DecidableEq

/-- A learning node as read by the selection engine.  The source also
attaches a purely diagnostic `weight_breakdown` record to scored nodes; it
is not read by any computation and is not modelled. -/
structure Node where
  id : String
  name : String
  node_type : Option String
  mastery_percentage : Option ℤ
  last_practiced : Option ℤ
  selection_weight : Option ℤ
  metadata : Option NodeMetadata
  weight_change : Option ℤ
  isCreateNewTopic : Bool
  deriving DecidableEq

/-- User preferences read by `calculateInterestMultiplier`. -/
structure UserPreferences where
  topic : Option String
  difficulty : Option String
  deriving DecidableEq

/-- An entry of the AI analysis lists (only its `nodeId` is read). -/
structure AnalysisEntry where
  nodeId : String
  deriving DecidableEq

/-- AI analysis signals read by `calculateFrequencyBias`; the source reads
`analysis.learningOpportunities || []` and `analysis.contentGaps || []`, so
an absent list is modelled by the empty list. -/
structure Analysis where
  learningOpportunities : List AnalysisEntry
  contentGaps : List AnalysisEntry
  deriving DecidableEq

/-- `this.defaultWeight` of `WeightedSelector`. -/
def defaultWeight : ℤ := 100

/-- `this.maxWeight` of `WeightedSelector`. -/
def maxWeight : ℤ := 200

/-- `this.minWeight` of `WeightedSelector`. -/
def minWeight : ℤ := 0

/-- The selection weight of a node as used in selector arithmetic.  The
source reads `node.selection_weight` directly; every caller hands the
selector nodes whose weight field is set, so the `Option` default is
unreachable on the source's actual inputs. -/
def sw (n : Node) : ℤ := n.selection_weight.getD 0

/-- Total selection weight, `reduce((sum, node) => sum + node.selection_weight, 0)`. -/
def sumSW (nodes : List Node) : ℤ := nodes.foldl (fun s n => s + sw n) 0

/-- `calculateMasteryWeight(masteryPercentage)`. -/
def calculateMasteryWeight (masteryPercentage : ℤ) : ℚ :=
  if 100 ≤ masteryPercentage then 0
  else if 99 ≤ masteryPercentage then 0.1
  else if 90 ≤ masteryPercentage then 0.3
  else if 70 ≤ masteryPercentage then 0.6
  else if 50 ≤ masteryPercentage then 1.0
  else if 30 ≤ masteryPercentage then 1.5
  else 2.0

/-- The `switch (node.node_type)` table of `calculateBaseImportance`. -/
def nodeTypeImportance (node : Node) : ℚ :=
  match node.node_type with
  | some "foundation" => 1.3
  | some "core" => 1.3
  | some "subject" => 1.1
  | some "skill" => 1.05
  | _ => 1.0

/-- `calculateBaseImportance(node)`: `node.metadata && node.metadata.base_importance`
is truthy only when the metadata bag is present and carries a nonzero
`base_importance`. -/
def calculateBaseImportance (node : Node) : ℚ :=
  match node.metadata with
  | some md =>
    match md.base_importance with
    | some b => if b = 0 then nodeTypeImportance node else b
    | none => nodeTypeImportance node
  | none => nodeTypeImportance node

/-- `calculateLastPracticedWeight(node)`; `now` and `last_practiced` are
millisecond timestamps and `Math.floor((now - lastPracticed) / 86400000)`
is floor division. -/
def calculateLastPracticedWeight (node : Node) (now : ℤ) : ℚ :=
  match node.last_practiced with
  | none => 1.3
  | some t =>
    let daysSincePractice : ℤ := (now - t).fdiv 86400000
    if daysSincePractice < 1 then 0.3
    else if daysSincePractice < 3 then 0.6
    else if daysSincePractice < 7 then 0.8
    else if daysSincePractice < 14 then 1.1
    else if daysSincePractice < 30 then 1.4
    else 1.8

/-- `calculateNewTopicWeight(nodes)`. -/
def calculateNewTopicWeight (nodes : List Node) : ℚ :=
  if nodes.length = 0 then 2.0
  else
    let totalMastery : ℤ := nodes.foldl (fun s n => s + jsOr n.mastery_percentage 0) 0
    let averageMastery : ℚ := (totalMastery : ℚ) / (nodes.length : ℚ)
    let highMasteryCount : ℕ := (nodes.filter (fun n => 90 ≤ jsOr n.mastery_percentage 0)).length
    let highMasteryRatio : ℚ := (highMasteryCount : ℚ) / (nodes.length : ℚ)
    let baseWeight : ℚ :=
      if 80 ≤ averageMastery then 1.5
      else if 60 ≤ averageMastery then 1.2
      else if 40 ≤ averageMastery then 1.0
      else if 20 ≤ averageMastery then 0.8
      else 0.5
    let boosted : ℚ := if 0.5 ≤ highMasteryRatio then baseWeight + 0.5 else baseWeight
    min boosted 2.0

/-- Leading-segment match of `needle` against `hay`, the auxiliary step of
the JavaScript `String.prototype.includes` model. -/
def charsLeadMatch : List Char → List Char → Bool
  | [], _ => true
  | _ :: _, [] => false
  | c :: cs, d :: ds => c = d && charsLeadMatch cs ds

/-- Substring containment over character lists. -/
def charsContain : List Char → List Char → Bool
  | [], needle => needle.isEmpty
  | c :: t, needle => charsLeadMatch needle (c :: t) || charsContain t needle

/-- JavaScript `hay.includes(needle)`. -/
def strIncludes (hay needle : String) : Bool := charsContain hay.data needle.data

/-- JavaScript `s.toLowerCase()` (ASCII case folding; all strings reaching
the engine in this repository are ASCII). -/
def lowerStr (s : String) : String := String.map Char.toLower s

/-- `inferDifficultyFromMastery(masteryPercentage)`.  The source passes
`node.mastery_percentage` without a default, so an absent value makes both
`< 40` and `< 80` false (JavaScript comparisons with `undefined`), landing
in the `advanced` branch. -/
def inferDifficultyFromMastery (masteryPercentage : Option ℤ) : String :=
  match masteryPercentage with
  | none => "advanced"
  | some v => if v < 40 then "beginner" else if v < 80 then "intermediate" else "advanced"

/-- The difficulty-preference branch of `calculateInterestMultiplier`. -/
def interestDifficultyBonus (node : Node) (userPreferences : UserPreferences) : ℚ :=
  let preferredDifficulty := jsOrStr userPreferences.difficulty "intermediate"
  let nodeDifficulty := inferDifficultyFromMastery node.mastery_percentage
  if preferredDifficulty = "beginner" ∧ nodeDifficulty = "beginner" then 1.2
  else if preferredDifficulty = "advanced" ∧ nodeDifficulty = "advanced" then 1.2
  else if preferredDifficulty = "intermediate" ∧ nodeDifficulty = "intermediate" then 1.1
  else 1.0

/-- `calculateInterestMultiplier(node, userPreferences)`. -/
def calculateInterestMultiplier (node : Node) (userPreferences : UserPreferences) : ℚ :=
  let preferredTopic := jsOrStr userPreferences.topic ""
  let nodeName := lowerStr node.name
  if preferredTopic = "" then interestDifficultyBonus node userPreferences
  else if strIncludes nodeName (lowerStr preferredTopic) then 1.5
  else interestDifficultyBonus node userPreferences

/-- `calculateFrequencyBias(node, analysis)`. -/
def calculateFrequencyBias (node : Node) (analysis : Analysis) : ℚ :=
  if analysis.learningOpportunities.any (fun opp => opp.nodeId == node.id) then 1.3
  else if analysis.contentGaps.any (fun gap => gap.nodeId == node.id) then 1.2
  else 1.0

/-- The per-node body of `calculateWeights`: the rounded product of the base
weight and the five multipliers, clamped to `[minWeight, maxWeight]`. -/
def nodeFinalWeight (node : Node) (userPreferences : UserPreferences)
    (analysis : Analysis) (now : ℤ) : ℤ :=
  let baseWeight := jsOr node.selection_weight defaultWeight
  let masteryWeight := calculateMasteryWeight (jsOr node.mastery_percentage 0)
  let baseImportance := calculateBaseImportance node
  let lastPracticedWeight := calculateLastPracticedWeight node now
  let interestMultiplier := calculateInterestMultiplier node userPreferences
  let frequencyBias := calculateFrequencyBias node analysis
  let finalWeight := jsRound ((baseWeight : ℚ) * masteryWeight * baseImportance *
    lastPracticedWeight * interestMultiplier * frequencyBias)
  max minWeight (min maxWeight finalWeight)

/-- The `createNewTopicOption` literal appended by `calculateWeights`. -/
def createNewTopicOption (newTopicWeight : ℚ) : Node :=
  { id := "create_new_topic"
    name := "Create New Topic"
    node_type := some "action"
    mastery_percentage := some 0
    last_practiced := none
    selection_weight := some (jsRound (newTopicWeight * (defaultWeight : ℚ)))
    metadata := none
    weight_change := none
    isCreateNewTopic := true }

/-- `calculateWeights(nodes, userPreferences, analysis)`. -/
def calculateWeights (nodes : List Node) (userPreferences : UserPreferences)
    (analysis : Analysis) (now : ℤ) : List Node :=
  let newTopicWeight := calculateNewTopicWeight nodes
  let nodesWithWeights := nodes.map (fun node =>
    { node with selection_weight := some (nodeFinalWeight node userPreferences analysis now) })
  nodesWithWeights ++ [createNewTopicOption newTopicWeight]

/-- The weight-accumulation loop of `weightedRandomPick`: return the first
node whose running cumulative weight reaches the draw (`randomValue <=
accumulatedWeight`). -/
def pickLoop : List Node → ℚ → ℤ → Option Node
  | [], _, _ => none
  | node :: rest, randomValue, acc =>
    let acc2 := acc + sw node
    if randomValue ≤ (acc2 : ℚ) then some node else pickLoop rest randomValue acc2

/-- `weightedRandomPick(nodesWithWeights)` with the `Math.random()` draw `r`
made explicit.  `none` models the thrown `No nodes available for selection`
error; for a zero total the source falls back to the uniform index
`Math.floor(Math.random() * length)`; the trailing fallback models the
final `return nodesWithWeights[nodesWithWeights.length - 1]`. -/
def weightedRandomPick (nodesWithWeights : List Node) (r : ℚ) : Option Node :=
  match nodesWithWeights with
  | [] => none
  | _ :: _ =>
    let totalWeight := sumSW nodesWithWeights
    if totalWeight = 0 then
      nodesWithWeights.get? (⌊r * (nodesWithWeights.length : ℚ)⌋.toNat)
    else
      match pickLoop nodesWithWeights (r * (totalWeight : ℚ)) 0 with
      | some node => some node
      | none => nodesWithWeights.getLast?

/-- `redistributeWeight(selectedNodeId, nodes, redistributionAmount)`; the
source's call sites pass `redistributionAmount = 15` (percent). -/
def redistributeWeight (selectedNodeId : String) (nodes : List Node)
    (redistributionAmount : ℚ) : List Node :=
  let redistributionFactor := redistributionAmount / 100
  match nodes.find? (fun n => n.id == selectedNodeId) with
  | none => nodes
  | some completedNode =>
    let weightToRedistribute := jsRound ((sw completedNode : ℚ) * redistributionFactor)
    let remainingWeight := sw completedNode - weightToRedistribute
    let finalCompletedWeight := max minWeight remainingWeight
    let otherNodes := nodes.filter (fun n => !(n.id == selectedNodeId))
    let weightPerNode := jsRound ((weightToRedistribute : ℚ) / (otherNodes.length : ℚ))
    nodes.map (fun node =>
      if node.id == selectedNodeId then
        { node with selection_weight := some finalCompletedWeight
                    weight_change := some (finalCompletedWeight - sw node) }
      else
        let newWeight := min maxWeight (sw node + weightPerNode)
        { node with selection_weight := some newWeight
                    weight_change := some (newWeight - sw node) })

/-- A row of the result of `updateNodeWeights` (the persisted weight deltas
reported back to the caller). -/
structure WeightUpdate where
  nodeId : String
  nodeName : String
  oldWeight : ℤ
  newWeight : ℤ
  change : ℤ
  deriving DecidableEq

/-- The guard `node.weight_change && node.weight_change !== 0` of
`updateNodeWeights`: an absent delta and a zero delta are both skipped. -/
def hasNonzeroChange (n : Node) : Bool :=
  match n.weight_change with
  | some c => decide (c ≠ 0)
  | none => false

/-- One iteration of the `updateNodeWeights` persistence loop: the database
row whose id matches the updated node receives its new `selection_weight`. -/
def persistWeight (state : List Node) (u : Node) : List Node :=
  state.map (fun n => if n.id == u.id then { n with selection_weight := u.selection_weight } else n)

/-- The database effect of `updateNodeWeights(updatedNodes)`: each updated
node with a nonzero recorded delta is written back in order. -/
def updateNodeWeightsState : List Node → List Node → List Node
  | state, [] => state
  | state, u :: rest =>
    updateNodeWeightsState (if hasNonzeroChange u then persistWeight state u else state) rest

/-- The list returned by `updateNodeWeights(updatedNodes)`. -/
def collectWeightUpdates (updatedNodes : List Node) : List WeightUpdate :=
  (updatedNodes.filter hasNonzeroChange).map (fun u =>
    { nodeId := u.id
      nodeName := u.name
      oldWeight := sw u - u.weight_change.getD 0
      newWeight := sw u
      change := u.weight_change.getD 0 })

/-- `LearningNodeManager.updateMastery(id, percentage)`: the storage layer
clamps the percentage to `[0, 100]` and refreshes `last_practiced`. -/
def dbUpdateMastery (state : List Node) (id : String) (percentage : ℤ) (now : ℤ) : List Node :=
  state.map (fun n =>
    if n.id == id then
      { n with mastery_percentage := some (max 0 (min 100 percentage))
               last_practiced := some now }
    else n)

/-- `updateLastPracticed(nodeId)` of the orchestrator. -/
def dbUpdateLastPracticed (state : List Node) (id : String) (now : ℤ) : List Node :=
  state.map (fun n => if n.id == id then { n with last_practiced := some now } else n)

/-- The increase applied on a passed lesson, `score ? Math.round(score / 10)
: 10`: the JavaScript truthiness guard treats both an absent and a zero
score as falsy. -/
def masteryIncrease (score : Option ℤ) : ℤ :=
  match score with
  | some s => if s = 0 then 10 else jsRound ((s : ℚ) / 10)
  | none => 10

/-- `handleLessonComplete(nodeId, passed, score)` of the business-logic
orchestrator, as a transition on the stored node population.  `none` models
the thrown `Completed node not found` error; otherwise the result is the
updated population paired with the reported weight updates. -/
def handleLessonComplete (nodeId : String) (passed : Bool) (score : Option ℤ)
    (now : ℤ) (state : List Node) : Option (List Node × List WeightUpdate) :=
  match state.find? (fun n => n.id == nodeId) with
  | none => none
  | some completedNode =>
    let oldMastery := jsOr completedNode.mastery_percentage 0
    let newMastery : ℤ :=
      if passed then min 100 (oldMastery + masteryIncrease score)
      else max 0 (oldMastery - 2)
    let state1 := dbUpdateMastery state nodeId newMastery now
    let state2 := dbUpdateLastPracticed state1 nodeId now
    if passed then
      let nodesWithWeights := state2.map (fun n =>
        { n with selection_weight := some (jsOr n.selection_weight 100) })
      let updatedNodes := redistributeWeight nodeId nodesWithWeights 15
      some (updateNodeWeightsState state2 updatedNodes, collectWeightUpdates updatedNodes)
    else
      some (state2, [])

/-- Redistribution as described by the specification, parameterized over the
rule that turns the moved weight and the count of receiving topics into the
per-topic share.  This definition follows the specification text (`toMove =
round(selected.weight × fraction)`, selected topic set to `max(MIN_WEIGHT,
selected.weight - toMove)`, every other topic receiving `min(MAX_WEIGHT,
weight + perTopicShare)`), to be compared with `redistributeWeight`. -/
def redistributeWeightBy (share : ℤ → ℕ → ℤ) (selectedNodeId : String)
    (nodes : List Node) (fraction : ℚ) : List Node :=
  match nodes.find? (fun n => n.id == selectedNodeId) with
  | none => nodes
  | some selected =>
    let toMove := jsRound ((sw selected : ℚ) * fraction)
    let selectedNewWeight := max minWeight (sw selected - toMove)
    let receiverCount := (nodes.filter (fun n => !(n.id == selectedNodeId))).length
    let perTopicShare := share toMove receiverCount
    nodes.map (fun node =>
      if node.id == selectedNodeId then
        { node with selection_weight := some selectedNewWeight
                    weight_change := some (selectedNewWeight - sw node) }
      else
        let newWeight := min maxWeight (sw node + perTopicShare)
        { node with selection_weight := some newWeight
                    weight_change := some (newWeight - sw node) })

/-- Integer division with the remainder dropped — the share rule claimed by
the specification. -/
def intDivShare (toMove : ℤ) (receiverCount : ℕ) : ℤ := toMove / (receiverCount : ℤ)

/-- Rounding to the nearest integer — the share rule the source actually
applies (`Math.round(weightToRedistribute / otherNodes.length)`). -/
def jsRoundShare (toMove : ℤ) (receiverCount : ℕ) : ℤ :=
  jsRound ((toMove : ℚ) / (receiverCount : ℚ))

/-- Empty user preferences (`{}` at the call sites). -/
def emptyPreferences : UserPreferences := { topic := none, difficulty := none }

/-- Empty analysis (`{}` at the call sites). -/
def emptyAnalysis : Analysis := { learningOpportunities := [], contentGaps := [] }

/-- Concise constructor for concrete test nodes. -/
def mkNode (id name : String) (w m : Option ℤ) : Node :=
  { id := id
    name := name
    node_type := none
    mastery_percentage := m
    last_practiced := none
    selection_weight := w
    metadata := none
    weight_change := none
    isCreateNewTopic := false }

lemma sumSW_eq_sum_map (l : List Node) : sumSW l = (l.map sw).sum := by
  suffices h : ∀ a : ℤ, l.foldl (fun s n => s + sw n) a = a + (l.map sw).sum by
    simpa [sumSW] using h 0
  induction l with
  | nil => simp
  | cons x t ih => intro a; simp [List.foldl_cons, ih]; ring

lemma pickLoop_pos (l : List Node) : ∀ (rv : ℚ) (acc : ℤ) (n : Node),
    (acc : ℚ) < rv → pickLoop l rv acc = some n → 0 < sw n := by
  induction l with
  | nil => intro rv acc n _ hp; simp [pickLoop] at hp
  | cons x t ih =>
    intro rv acc n h hp
    by_cases hle : rv ≤ ((acc + sw x : ℤ) : ℚ)
    · simp only [pickLoop] at hp
      rw [if_pos hle] at hp
      cases hp
      have hq : (0 : ℚ) < (sw x : ℚ) := by push_cast at hle; linarith
      exact_mod_cast hq
    · simp only [pickLoop] at hp
      rw [if_neg hle] at hp
      refine ih rv (acc + sw x) n ?_ hp
      push_cast
      push_cast at hle
      linarith

lemma pickLoop_isSome (l : List Node) : ∀ (rv : ℚ) (acc : ℤ), l ≠ [] →
    rv ≤ (acc : ℚ) + (((l.map sw).sum : ℤ) : ℚ) → (pickLoop l rv acc).isSome := by
  induction l with
  | nil => intro rv acc h _; exact absurd rfl h
  | cons x t ih =>
    intro rv acc _ hle
    by_cases h : rv ≤ ((acc + sw x : ℤ) : ℚ)
    · simp only [pickLoop]
      rw [if_pos h]
      rfl
    · cases t with
      | nil =>
        exfalso
        apply h
        rw [List.map_cons, List.map_nil, List.sum_cons, List.sum_nil, add_zero] at hle
        push_cast
        linarith
      | cons y s =>
        simp only [pickLoop]
        rw [if_neg h]
        refine ih rv (acc + sw x) (by simp) ?_
        rw [List.map_cons, List.sum_cons] at hle
        push_cast
        push_cast at hle
        linarith

/-- C1 (amended): `masteryFactor(100) = 0`; a topic with mastery at least
100 receives final weight 0 from the weight calculation; and for every
candidate list with positive total weight and every random draw strictly
inside the unit interval (equivalently, a raw draw strictly between 0 and
the total), the weighted pick returns a candidate with positive selection
weight.  The original claim also covered the draw `r = 0`, where it fails
(see the counterexample). -/
theorem claim1_mastery_avoidance :
    calculateMasteryWeight 100 = 0 ∧
    (∀ (node : Node) (prefs : UserPreferences) (analysis : Analysis) (now : ℤ),
      100 ≤ jsOr node.mastery_percentage 0 →
        nodeFinalWeight node prefs analysis now = 0) ∧
    (∀ (nodes : List Node) (r : ℚ) (n : Node), 0 < sumSW nodes → 0 < r → r < 1 →
      weightedRandomPick nodes r = some n → 0 < sw n) := by
  refine ⟨by norm_num [calculateMasteryWeight], ?_, ?_⟩
  · intro node prefs analysis now h
    simp only [nodeFinalWeight, calculateMasteryWeight, if_pos h]
    norm_num [jsRound, minWeight, maxWeight]
  · intro nodes r n htot hr hr1 hpick
    cases nodes with
    | nil => simp [sumSW] at htot
    | cons x t =>
      have htot2 : sumSW (x :: t) ≠ 0 := ne_of_gt htot
      simp only [weightedRandomPick, if_neg htot2] at hpick
      cases hcase : pickLoop (x :: t) (r * (sumSW (x :: t) : ℚ)) 0 with
      | some m =>
        rw [hcase] at hpick
        cases hpick
        refine pickLoop_pos (x :: t) _ 0 n ?_ hcase
        have : (0 : ℚ) < (sumSW (x :: t) : ℚ) := by exact_mod_cast htot
        push_cast
        positivity
      | none =>
        exfalso
        have hne : (x :: t : List Node) ≠ [] := by simp
        have hs := pickLoop_isSome (x :: t) (r * (sumSW (x :: t) : ℚ)) 0 hne ?_
        · rw [hcase] at hs; simp at hs
        · have hq : (0 : ℚ) < (sumSW (x :: t) : ℚ) := by exact_mod_cast htot
          have : r * (sumSW (x :: t) : ℚ) < (sumSW (x :: t) : ℚ) := by
            calc r * (sumSW (x :: t) : ℚ) < 1 * (sumSW (x :: t) : ℚ) := by
                  exact mul_lt_mul_of_pos_right hr1 hq
              _ = (sumSW (x :: t) : ℚ) := one_mul _
          rw [← sumSW_eq_sum_map]
          push_cast
          linarith

/-- Witness for C1 at concrete inputs: a node at 100% mastery gets weight 0,
and the pick over a single positive-weight candidate returns a candidate of
positive weight. -/
theorem claim1_mastery_avoidance_witness :
    calculateMasteryWeight 100 = 0 ∧
    nodeFinalWeight (mkNode "a" "a" none (some 100)) emptyPreferences emptyAnalysis 0 = 0 ∧
    0 < sw (mkNode "a" "a" (some 5) none) := by
  refine ⟨claim1_mastery_avoidance.1, ?_, ?_⟩
  · exact claim1_mastery_avoidance.2.1 (mkNode "a" "a" none (some 100))
      emptyPreferences emptyAnalysis 0 (by decide)
  · exact claim1_mastery_avoidance.2.2 [mkNode "a" "a" (some 5) none] (1/2)
      (mkNode "a" "a" (some 5) none) (by decide) (by norm_num) (by norm_num)
      (by norm_num +decide [weightedRandomPick, pickLoop, sumSW, sw, mkNode])

/-- Counterexample for C1 as stated: at the draw `r = 0` (which lies in
`[0, total)`), the pick returns the zero-weight candidate at the head of
the list even though another candidate has positive weight. -/
theorem claim1_mastery_avoidance_counterexample :
    weightedRandomPick [mkNode "z" "Z" (some 0) none, mkNode "p" "P" (some 5) none] 0 =
      some (mkNode "z" "Z" (some 0) none) ∧
    sw (mkNode "z" "Z" (some 0) none) = 0 ∧
    0 < sw (mkNode "p" "P" (some 5) none) ∧
    0 < sumSW [mkNode "z" "Z" (some 0) none, mkNode "p" "P" (some 5) none] := by
  refine ⟨?_, by decide, by decide, by decide⟩
  norm_num +decide [weightedRandomPick, pickLoop, sumSW, sw, mkNode]

/-- C5 (confirmed): the pick fails (the `No nodes available for selection`
error) exactly when the candidate list is empty; for a non-empty list with
total weight 0 it does not fail and returns the candidate at the uniform
fallback index `floor(r * N)`, which is always in range for a draw in
`[0, 1)`. -/
theorem claim5_selector_error_contract :
    ∀ (nodes : List Node) (r : ℚ), 0 ≤ r → r < 1 →
      ((weightedRandomPick nodes r = none ↔ nodes = []) ∧
       (nodes ≠ [] → sumSW nodes = 0 →
         (⌊r * (nodes.length : ℚ)⌋.toNat < nodes.length ∧
          weightedRandomPick nodes r = nodes.get? (⌊r * (nodes.length : ℚ)⌋.toNat)))) := by
  intro nodes r hr hr1
  cases nodes with
  | nil => simp [weightedRandomPick]
  | cons x t =>
    have hlen : (0 : ℚ) < ((x :: t : List Node).length : ℚ) := by
      have : 0 < (x :: t : List Node).length := by simp
      exact_mod_cast this
    have hidx : ⌊r * ((x :: t : List Node).length : ℚ)⌋.toNat < (x :: t : List Node).length := by
      have h1 : ⌊r * ((x :: t : List Node).length : ℚ)⌋ < ((x :: t : List Node).length : ℤ) := by
        rw [Int.floor_lt]
        push_cast
        calc r * ((x :: t : List Node).length : ℚ) < 1 * ((x :: t : List Node).length : ℚ) :=
              mul_lt_mul_of_pos_right hr1 hlen
          _ = _ := one_mul _
      have h0 : 0 ≤ ⌊r * ((x :: t : List Node).length : ℚ)⌋ :=
        Int.floor_nonneg.2 (mul_nonneg hr (le_of_lt hlen))
      omega
    constructor
    · constructor
      · intro hnone
        exfalso
        by_cases htot : sumSW (x :: t) = 0
        · simp only [weightedRandomPick, if_pos htot] at hnone
          rw [List.get?_eq_none] at hnone
          omega
        · simp only [weightedRandomPick, if_neg htot] at hnone
          cases hcase : pickLoop (x :: t) (r * (sumSW (x :: t) : ℚ)) 0 with
          | some m => rw [hcase] at hnone; simp at hnone
          | none =>
            rw [hcase] at hnone
            simp [List.getLast?] at hnone
      · intro h; cases h
    · intro _ htot
      refine ⟨hidx, ?_⟩
      simp [weightedRandomPick, if_pos htot]

/-- Witness for C5: over a single zero-weight candidate with draw 1/2, the
pick succeeds and returns the index-0 fallback candidate. -/
theorem claim5_selector_error_contract_witness :
    (weightedRandomPick [mkNode "z" "Z" (some 0) none] (1/2) = none ↔
      ([mkNode "z" "Z" (some 0) none] : List Node) = []) ∧
    (⌊(1/2 : ℚ) * (([mkNode "z" "Z" (some 0) none] : List Node).length : ℚ)⌋.toNat <
      ([mkNode "z" "Z" (some 0) none] : List Node).length ∧
     weightedRandomPick [mkNode "z" "Z" (some 0) none] (1/2) =
       [mkNode "z" "Z" (some 0) none].get?
         ⌊(1/2 : ℚ) * (([mkNode "z" "Z" (some 0) none] : List Node).length : ℚ)⌋.toNat) := by
  have h := claim5_selector_error_contract [mkNode "z" "Z" (some 0) none] (1/2)
    (by norm_num) (by norm_num)
  exact ⟨h.1, h.2 (by simp) (by decide)⟩

/-- C7 (amended): with absent or empty user preferences the preferred-topic
branch never fires, but the difficulty preference silently defaults to
`intermediate`; the interest factor is therefore 1.1 for a topic whose
inferred difficulty band is intermediate (stored mastery in `[40, 80)`) and
1.0 for every other topic — not 1.0 across the board as originally
claimed. -/
theorem claim7_neutral_defaults :
    ∀ node : Node,
      calculateInterestMultiplier node emptyPreferences =
        if inferDifficultyFromMastery node.mastery_percentage = "intermediate"
        then 1.1 else 1.0 := by
  intro node
  simp +decide [calculateInterestMultiplier, interestDifficultyBonus, jsOrStr, emptyPreferences]

/-- Counterexample for C7 as stated: a topic with mastery 50 receives
interest factor 1.1, not 1.0, under empty preferences. -/
theorem claim7_neutral_defaults_counterexample :
    calculateInterestMultiplier (mkNode "a" "a" none (some 50)) emptyPreferences = 1.1 ∧
    (1.1 : ℚ) ≠ 1.0 := by
  constructor
  · norm_num +decide [calculateInterestMultiplier, interestDifficultyBonus,
      inferDifficultyFromMastery, jsOrStr, emptyPreferences, mkNode]
  · norm_num

/-- C10 (confirmed): `calculateWeights` never returns an empty list — on an
empty input it returns exactly the synthetic create-new candidate with
`isCreateNewTopic = true` and weight `round(2.0 * 100) = 200` — so the
empty-input error branch of `weightedRandomPick` is unreachable on any
output of `calculateWeights`. -/
theorem claim10_never_empty :
    ∀ (prefs : UserPreferences) (analysis : Analysis) (now : ℤ),
      (calculateWeights [] prefs analysis now =
        [{ id := "create_new_topic", name := "Create New Topic", node_type := some "action",
           mastery_percentage := some 0, last_practiced := none,
           selection_weight := some 200, metadata := none, weight_change := none,
           isCreateNewTopic := true }]) ∧
      (∀ nodes : List Node, calculateWeights nodes prefs analysis now ≠ []) := by
  intro prefs analysis now
  constructor
  · norm_num [calculateWeights, calculateNewTopicWeight, createNewTopicOption, jsRound,
      defaultWeight]
  · intro nodes
    simp [calculateWeights]

/-- Final-weight formula as stated by the specification for a single topic,
parameterized by the rule extracting the base weight from the topic. -/
def specTopicWeight (base : Node → ℤ) (node : Node) (userPreferences : UserPreferences)
    (analysis : Analysis) (now : ℤ) : ℤ :=
  max 0 (min 200 (jsRound ((base node : ℚ) *
    calculateMasteryWeight (jsOr node.mastery_percentage 0) * calculateBaseImportance node *
    calculateLastPracticedWeight node now * calculateInterestMultiplier node userPreferences *
    calculateFrequencyBias node analysis)))

/-- Base-weight rule as the claim states it: the stored selection weight,
or 100 only when the topic has none. -/
def claimedBase (node : Node) : ℤ := node.selection_weight.getD defaultWeight

/-- Base-weight rule the source implements: an absent and a zero stored
weight both fall back to 100 (JavaScript `node.selection_weight || 100`). -/
def actualBase (node : Node) : ℤ := jsOr node.selection_weight defaultWeight

lemma nodeFinalWeight_eq_spec (node : Node) (userPreferences : UserPreferences)
    (analysis : Analysis) (now : ℤ) :
    nodeFinalWeight node userPreferences analysis now =
      specTopicWeight actualBase node userPreferences analysis now := rfl

lemma calculateWeights_eq (nodes : List Node) (userPreferences : UserPreferences)
    (analysis : Analysis) (now : ℤ) :
    calculateWeights nodes userPreferences analysis now =
      nodes.map (fun node =>
        { node with selection_weight := some (nodeFinalWeight node userPreferences analysis now) })
      ++ [createNewTopicOption (calculateNewTopicWeight nodes)] := rfl

/-- Concrete input refuting the integer-division reading of redistribution:
the selected topic has weight 33, so `toMove = round(4.95) = 5` is split
between two receivers. -/
def cxNodesC2 : List Node :=
  [mkNode "a" "A" (some 33) none, mkNode "b" "B" (some 10) none, mkNode "c" "C" (some 10) none]

/-- C2 (amended): `redistributeWeight` computes `toMove = round(selected.weight
× fraction)`, lowers the selected topic to `max(MIN_WEIGHT, weight − toMove)`
and gives every other topic `min(MAX_WEIGHT, weight + perTopicShare)` — but
the per-topic share is `round(toMove / otherCount)` (rounding to nearest),
not integer division with the remainder dropped. -/
theorem claim2_redistribution_algorithm :
    ∀ (selectedNodeId : String) (nodes : List Node) (amount : ℚ),
      redistributeWeight selectedNodeId nodes amount =
        redistributeWeightBy jsRoundShare selectedNodeId nodes (amount / 100) := by
  intro selectedNodeId nodes amount
  unfold redistributeWeight redistributeWeightBy jsRoundShare
  rfl

/-- Counterexample for C2 as stated: with the selected weight 33 and two
receivers, the source gives each receiver `round(5/2) = 3` where the claim
prescribes `5 div 2 = 2`. -/
theorem claim2_redistribution_algorithm_counterexample :
    (redistributeWeight "a" cxNodesC2 15).map sw = [28, 13, 13] ∧
    (redistributeWeightBy intDivShare "a" cxNodesC2 (15/100)).map sw = [28, 12, 12] ∧
    (redistributeWeight "a" cxNodesC2 15).map sw ≠
      (redistributeWeightBy intDivShare "a" cxNodesC2 (15/100)).map sw := by
  refine ⟨?_, ?_, ?_⟩
  · norm_num +decide [redistributeWeight, cxNodesC2, mkNode, sw, jsRound, List.find?,
      List.filter_cons, List.filter_nil, minWeight, maxWeight]
  · norm_num +decide [redistributeWeightBy, intDivShare, cxNodesC2, mkNode, sw, jsRound,
      List.find?, List.filter_cons, List.filter_nil, minWeight, maxWeight]
  · intro h
    have h1 : (redistributeWeight "a" cxNodesC2 15).map sw = [28, 13, 13] := by
      norm_num +decide [redistributeWeight, cxNodesC2, mkNode, sw, jsRound, List.find?,
        List.filter_cons, List.filter_nil, minWeight, maxWeight]
    have h2 : (redistributeWeightBy intDivShare "a" cxNodesC2 (15/100)).map sw = [28, 12, 12] := by
      norm_num +decide [redistributeWeightBy, intDivShare, cxNodesC2, mkNode, sw, jsRound,
        List.find?, List.filter_cons, List.filter_nil, minWeight, maxWeight]
    rw [h1, h2] at h
    simp at h

/-- C6 (amended): the output of `calculateWeights` keeps every input topic
in input order, assigning each the clamped rounded product of the base
weight and the five factors — where the base weight falls back to 100 both
when the stored weight is absent and when it is 0 — and appends exactly one
synthetic create-new candidate whose weight is `round(newTopicFactor × 100)`. -/
theorem claim6_compute_weights :
    ∀ (nodes : List Node) (userPreferences : UserPreferences) (analysis : Analysis) (now : ℤ),
      (calculateWeights nodes userPreferences analysis now).length = nodes.length + 1 ∧
      (∀ i : ℕ, ∀ h : i < nodes.length,
        (calculateWeights nodes userPreferences analysis now).get? i =
          some { nodes.get ⟨i, h⟩ with
            selection_weight :=
              some (specTopicWeight actualBase (nodes.get ⟨i, h⟩) userPreferences analysis now) }) ∧
      (calculateWeights nodes userPreferences analysis now).get? nodes.length =
        some (createNewTopicOption (calculateNewTopicWeight nodes)) := by
  intro nodes userPreferences analysis now
  refine ⟨by simp [calculateWeights], ?_, ?_⟩
  · intro i h
    rw [calculateWeights_eq, List.get?_append (by simpa using h), List.get?_map,
      List.get?_eq_get h]
    simp [nodeFinalWeight_eq_spec]
  · rw [calculateWeights_eq, List.get?_append_right (by simp)]
    simp

/-- Witness for C6 at a single concrete topic: the first output entry is
the rescored topic and the entry after the input length is the synthetic
candidate. -/
theorem claim6_compute_weights_witness :
    (calculateWeights [mkNode "a" "a" none none] emptyPreferences emptyAnalysis 0).get? 0 =
      some { mkNode "a" "a" none none with
        selection_weight :=
          some (specTopicWeight actualBase (mkNode "a" "a" none none)
            emptyPreferences emptyAnalysis 0) } :=
  (claim6_compute_weights [mkNode "a" "a" none none] emptyPreferences emptyAnalysis 0).2.1
    0 (by decide)

/-- Concrete topic refuting the claimed base-weight rule: stored weight 0,
mastery 90. -/
def cxNode6 : Node := mkNode "a" "a" (some 0) (some 90)

/-- Counterexample for C6 as stated: for a topic with stored weight 0 the
claimed formula (base = stored weight, since one is present) yields weight
0, but the source treats the stored 0 as absent, uses base 100 and outputs
weight 39. -/
theorem claim6_compute_weights_counterexample :
    (calculateWeights [cxNode6] emptyPreferences emptyAnalysis 0).get? 0 ≠
      some { cxNode6 with
        selection_weight :=
          some (specTopicWeight claimedBase cxNode6 emptyPreferences emptyAnalysis 0) } := by
  have h1 : (calculateWeights [cxNode6] emptyPreferences emptyAnalysis 0).get? 0 =
      some { cxNode6 with selection_weight := some 39 } := by
    norm_num +decide [calculateWeights, nodeFinalWeight, cxNode6, mkNode, jsOr, jsOrStr,
      calculateMasteryWeight, calculateBaseImportance, nodeTypeImportance,
      calculateLastPracticedWeight, calculateInterestMultiplier, interestDifficultyBonus,
      inferDifficultyFromMastery, calculateFrequencyBias, emptyPreferences, emptyAnalysis,
      jsRound, defaultWeight, minWeight, maxWeight]
  have h2 : specTopicWeight claimedBase cxNode6 emptyPreferences emptyAnalysis 0 = 0 := by
    norm_num +decide [specTopicWeight, claimedBase, cxNode6, mkNode, jsOr, jsOrStr,
      calculateMasteryWeight, calculateBaseImportance, nodeTypeImportance,
      calculateLastPracticedWeight, calculateInterestMultiplier, interestDifficultyBonus,
      inferDifficultyFromMastery, calculateFrequencyBias, emptyPreferences, emptyAnalysis,
      jsRound, defaultWeight]
  rw [h1, h2]
  simp +decide [cxNode6, mkNode]

lemma calculateNewTopicWeight_bounds (nodes : List Node) :
    (1/2 : ℚ) ≤ calculateNewTopicWeight nodes ∧ calculateNewTopicWeight nodes ≤ 2 := by
  simp only [calculateNewTopicWeight]
  split
  · norm_num
  · refine ⟨le_min ?_ (by norm_num), le_trans (min_le_right _ _) (by norm_num)⟩
    split <;> (repeat' split) <;> norm_num

lemma createNewTopicOption_weight_bounds (nodes : List Node) :
    0 ≤ jsRound (calculateNewTopicWeight nodes * (defaultWeight : ℚ)) ∧
      jsRound (calculateNewTopicWeight nodes * (defaultWeight : ℚ)) ≤ 200 := by
  obtain ⟨h1, h2⟩ := calculateNewTopicWeight_bounds nodes
  constructor
  · apply Int.le_floor.2
    push_cast
    simp only [defaultWeight]
    push_cast
    nlinarith
  · have hlt : jsRound (calculateNewTopicWeight nodes * (defaultWeight : ℚ)) < 201 := by
      apply Int.floor_lt.2
      push_cast
      simp only [defaultWeight]
      push_cast
      nlinarith
    omega

/-- C9 (confirmed): every candidate in the output of `calculateWeights` —
every rescored topic and the appended synthetic create-new candidate — has
a selection weight in `[0, 200]`. -/
theorem claim9_range_invariant :
    ∀ (nodes : List Node) (userPreferences : UserPreferences) (analysis : Analysis) (now : ℤ)
      (n : Node), n ∈ calculateWeights nodes userPreferences analysis now →
        0 ≤ sw n ∧ sw n ≤ 200 := by
  intro nodes userPreferences analysis now n hmem
  rw [calculateWeights_eq] at hmem
  rcases List.mem_append.1 hmem with hmem | hmem
  · obtain ⟨m, _, rfl⟩ := List.mem_map.1 hmem
    simp only [sw, nodeFinalWeight, minWeight, maxWeight, Option.getD_some]
    omega
  · have hn : n = createNewTopicOption (calculateNewTopicWeight nodes) := by simpa using hmem
    subst hn
    have h := createNewTopicOption_weight_bounds nodes
    simpa [sw, createNewTopicOption] using h

/-- Witness for C9: the single rescored topic of a concrete run (weight
200) lies within the range. -/
theorem claim9_range_invariant_witness :
    0 ≤ sw { mkNode "a" "a" none none with selection_weight := some 200 } ∧
      sw { mkNode "a" "a" none none with selection_weight := some 200 } ≤ 200 := by
  refine claim9_range_invariant [mkNode "a" "a" none none] emptyPreferences emptyAnalysis 0 _ ?_
  have h : (calculateWeights [mkNode "a" "a" none none] emptyPreferences emptyAnalysis 0).get? 0 =
      some { mkNode "a" "a" none none with selection_weight := some 200 } := by
    norm_num +decide [calculateWeights, nodeFinalWeight, mkNode, jsOr, jsOrStr,
      calculateMasteryWeight, calculateBaseImportance, nodeTypeImportance,
      calculateLastPracticedWeight, calculateInterestMultiplier, interestDifficultyBonus,
      inferDifficultyFromMastery, calculateFrequencyBias, emptyPreferences, emptyAnalysis,
      jsRound, defaultWeight, minWeight, maxWeight]
  exact List.get?_mem h

lemma mem_dbUpdates (state : List Node) (id0 : String) (pct now : ℤ) :
    ∀ n ∈ dbUpdateLastPracticed (dbUpdateMastery state id0 pct now) id0 now,
      n.id = id0 →
        n.mastery_percentage = some (max 0 (min 100 pct)) ∧ n.last_practiced = some now := by
  intro n hn hid
  simp only [dbUpdateLastPracticed, dbUpdateMastery, List.map_map] at hn
  obtain ⟨m, _, rfl⟩ := List.mem_map.1 hn
  by_cases h : m.id = id0
  · simp [Function.comp, h]
  · have hb : (m.id == id0) = false := by simp [h]
    simp only [Function.comp, hb, Bool.false_eq_true, if_false] at hid
    exact absurd hid h

lemma updateNodeWeightsState_preserve (P : Node → Prop)
    (hP : ∀ (x : Node) (w : Option ℤ), P x → P { x with selection_weight := w }) :
    ∀ (us state : List Node), (∀ n ∈ state, P n) → ∀ n ∈ updateNodeWeightsState state us, P n := by
  intro us
  induction us with
  | nil =>
    intro state h n hn
    exact h n (by simpa [updateNodeWeightsState] using hn)
  | cons u rest ih =>
    intro state h n hn
    simp only [updateNodeWeightsState] at hn
    refine ih _ ?_ n hn
    intro x hx
    by_cases hc : hasNonzeroChange u
    · rw [if_pos hc] at hx
      simp only [persistWeight] at hx
      obtain ⟨m, hm, rfl⟩ := List.mem_map.1 hx
      by_cases hid : m.id = u.id
      · have hb : (m.id == u.id) = true := by simp [hid]
        simp only [hb, if_true]
        exact hP m u.selection_weight (h m hm)
      · have hb : (m.id == u.id) = false := by simp [hid]
        simp only [hb, Bool.false_eq_true, if_false]
        exact h m hm
    · rw [if_neg hc] at hx
      exact h x hx

/-- C4 (amended): on a completion event for an existing topic with old
mastery `m`, the stored mastery becomes `clamp(m + delta, 0, 100)` where
`delta` is `-2` on failure and, on a pass, `round(score/10)` for a present
nonzero score but `10` when the score is absent **or zero** (the JavaScript
truthiness guard `score ? ... : 10`); `lastPracticed` is refreshed to the
current time regardless of pass/fail. -/
theorem claim4_mastery_update :
    ∀ (state : List Node) (nodeId : String) (passed : Bool) (score : Option ℤ) (now : ℤ)
      (cn : Node) (result : List Node × List WeightUpdate),
      state.find? (fun n => n.id == nodeId) = some cn →
      handleLessonComplete nodeId passed score now state = some result →
      ∀ n ∈ result.1, n.id = nodeId →
        n.mastery_percentage = some (max 0 (min 100 (jsOr cn.mastery_percentage 0 +
          (if passed then masteryIncrease score else -2)))) ∧
        n.last_practiced = some now := by
  intro state nodeId passed score now cn result hfind hrun n hn hid
  cases passed with
  | false =>
    simp only [handleLessonComplete, hfind, Bool.false_eq_true, if_false,
      Option.some.injEq] at hrun
    subst hrun
    have h := mem_dbUpdates state nodeId (max 0 (jsOr cn.mastery_percentage 0 - 2)) now n hn hid
    refine ⟨?_, h.2⟩
    rw [h.1]
    simp only [Option.some.injEq, Bool.false_eq_true, if_false]
    omega
  | true =>
    simp only [handleLessonComplete, hfind, if_true, Option.some.injEq] at hrun
    subst hrun
    have hpres := updateNodeWeightsState_preserve
      (fun x => x.id = nodeId →
        x.mastery_percentage = some (max 0 (min 100 (jsOr cn.mastery_percentage 0 +
          masteryIncrease score))) ∧ x.last_practiced = some now)
      (by intro x w hx; exact hx) _ _ ?_ n hn hid
    · simpa using hpres
    · intro m hm hmid
      have h := mem_dbUpdates state nodeId _ now m hm hmid
      refine ⟨?_, h.2⟩
      rw [h.1]
      congr 1
      omega

/-- Witness for C4: a passed completion of a mastery-50 topic with an
explicit score of 0 raises the stored mastery to 60 (the zero score is
treated like an absent score) and stamps the practice time. -/
theorem claim4_mastery_update_witness :
    ({ mkNode "x" "X" (some 85) (some 60) with
        last_practiced := some 7 } : Node).mastery_percentage =
      some (max 0 (min 100 (jsOr (mkNode "x" "X" (some 100) (some 50)).mastery_percentage 0 +
        (if true then masteryIncrease (some 0) else -2)))) ∧
    ({ mkNode "x" "X" (some 85) (some 60) with
        last_practiced := some 7 } : Node).last_practiced = some 7 := by
  refine claim4_mastery_update [mkNode "x" "X" (some 100) (some 50)] "x" true (some 0) 7
    (mkNode "x" "X" (some 100) (some 50))
    ([{ mkNode "x" "X" (some 85) (some 60) with last_practiced := some 7 }],
      [{ nodeId := "x", nodeName := "X", oldWeight := 100, newWeight := 85, change := -15 }])
    (by decide) ?_ _ (by simp) (by decide)
  norm_num +decide [handleLessonComplete, masteryIncrease, List.find?, List.filter_cons,
    List.filter_nil, mkNode, jsOr, dbUpdateMastery, dbUpdateLastPracticed, redistributeWeight,
    updateNodeWeightsState, collectWeightUpdates, hasNonzeroChange, persistWeight,
    sw, jsRound, minWeight, maxWeight]

/-- Counterexample for C4 as stated: a passed completion with the present
score 0 stores mastery 60 for a topic of mastery 50, not the 50 prescribed
by `clamp(50 + round(0/10), 0, 100)`. -/
theorem claim4_mastery_update_counterexample :
    (handleLessonComplete "x" true (some 0) 7 [mkNode "x" "X" (some 100) (some 50)]).map
        (fun result => result.1.map (fun n => n.mastery_percentage)) =
      some [some 60] ∧
    max 0 (min 100 (jsOr (mkNode "x" "X" (some 100) (some 50)).mastery_percentage 0 +
      jsRound (((0 : ℤ) : ℚ) / 10))) = 50 ∧
    some (60 : ℤ) ≠ some (50 : ℤ) := by
  refine ⟨?_, ?_, by decide⟩
  · norm_num +decide [handleLessonComplete, masteryIncrease, List.find?, List.filter_cons,
      List.filter_nil, mkNode, jsOr, dbUpdateMastery, dbUpdateLastPracticed, redistributeWeight,
      updateNodeWeightsState, collectWeightUpdates, hasNonzeroChange, persistWeight,
      sw, jsRound, minWeight, maxWeight]
  · norm_num +decide [mkNode, jsOr, jsRound]

/-- C8 (confirmed): a failed completion of an existing topic produces no
weight updates and changes only the completed topic, whose mastery drops by
2 (floored at 0) and whose practice timestamp is refreshed; every other
topic, and every other field of the completed topic, is unchanged. -/
theorem claim8_no_redistribution_on_failure :
    ∀ (state : List Node) (nodeId : String) (score : Option ℤ) (now : ℤ) (cn : Node)
      (result : List Node × List WeightUpdate),
      state.find? (fun n => n.id == nodeId) = some cn →
      jsOr cn.mastery_percentage 0 ≤ 100 →
      handleLessonComplete nodeId false score now state = some result →
      result.2 = [] ∧
      result.1 = state.map (fun n =>
        if n.id = nodeId then
          { n with mastery_percentage := some (max 0 (jsOr cn.mastery_percentage 0 - 2)),
                   last_practiced := some now }
        else n) := by
  intro state nodeId score now cn result hfind hm hrun
  simp only [handleLessonComplete, hfind, Bool.false_eq_true, if_false,
    Option.some.injEq] at hrun
  subst hrun
  refine ⟨rfl, ?_⟩
  simp only [dbUpdateLastPracticed, dbUpdateMastery, List.map_map]
  refine List.map_congr_left ?_
  intro n _
  by_cases h : n.id = nodeId
  · have hb : (n.id == nodeId) = true := by simp [h]
    simp [Function.comp, hb, h]
    omega
  · have hb : (n.id == nodeId) = false := by simp [h]
    simp [Function.comp, hb, h]

/-- Witness for C8: failing a mastery-50 topic in a two-topic population
leaves the other topic untouched, produces no weight updates, and stores
mastery 48 with the refreshed timestamp. -/
theorem claim8_no_redistribution_on_failure_witness :
    (([{ mkNode "x" "X" (some 100) (some 48) with last_practiced := some 7 },
        mkNode "y" "Y" (some 80) (some 30)],
      ([] : List WeightUpdate)) : List Node × List WeightUpdate).2 = [] ∧
    (([{ mkNode "x" "X" (some 100) (some 48) with last_practiced := some 7 },
        mkNode "y" "Y" (some 80) (some 30)],
      ([] : List WeightUpdate)) : List Node × List WeightUpdate).1 =
      ([mkNode "x" "X" (some 100) (some 50), mkNode "y" "Y" (some 80) (some 30)] :
          List Node).map (fun n =>
        if n.id = "x" then
          { n with
            mastery_percentage :=
              some (max 0 (jsOr (mkNode "x" "X" (some 100) (some 50)).mastery_percentage 0 - 2)),
            last_practiced := some 7 }
        else n) :=
  claim8_no_redistribution_on_failure
    [mkNode "x" "X" (some 100) (some 50), mkNode "y" "Y" (some 80) (some 30)] "x" none 7
    (mkNode "x" "X" (some 100) (some 50)) _ (by decide) (by decide) (by decide)

lemma sum_map_sub (l : List Node) (f g : Node → ℤ) :
    (l.map f).sum - (l.map g).sum = (l.map (fun n => f n - g n)).sum := by
  induction l with
  | nil => simp
  | cons x t ih =>
    simp only [List.map_cons, List.sum_cons]
    omega

lemma find?_eq_of_nodup (nodes : List Node) (selId : String) (sel : Node)
    (hnd : (nodes.map Node.id).Nodup) (hmem : sel ∈ nodes) (hsid : sel.id = selId) :
    nodes.find? (fun n => n.id == selId) = some sel := by
  induction nodes with
  | nil => cases hmem
  | cons x t ih =>
    rw [List.map_cons, List.nodup_cons] at hnd
    rcases List.mem_cons.1 hmem with rfl | hmem2
    · exact List.find?_cons_of_pos t (by simp [hsid])
    · have hx : x.id ≠ selId := by
        intro h
        exact hnd.1 (by rw [h, ← hsid]; exact List.mem_map_of_mem Node.id hmem2)
      rw [List.find?_cons_of_neg t (by simp [hx])]
      exact ih hnd.2 hmem2

lemma filter_id_single (nodes : List Node) (selId : String) (sel : Node)
    (hnd : (nodes.map Node.id).Nodup) (hmem : sel ∈ nodes) (hsid : sel.id = selId) :
    nodes.filter (fun n => n.id == selId) = [sel] := by
  induction nodes with
  | nil => cases hmem
  | cons x t ih =>
    rw [List.map_cons, List.nodup_cons] at hnd
    rcases List.mem_cons.1 hmem with rfl | hmem2
    · rw [List.filter_cons_of_pos (by simp [hsid])]
      have ht : t.filter (fun n => n.id == selId) = [] := by
        rw [List.filter_eq_nil]
        intro n hn h
        have hn2 : n.id = selId := by simpa using h
        exact hnd.1 (by rw [hsid, ← hn2]; exact List.mem_map_of_mem Node.id hn)
      rw [ht]
    · have hx : x.id ≠ selId := by
        intro h
        exact hnd.1 (by rw [h, ← hsid]; exact List.mem_map_of_mem Node.id hmem2)
      rw [List.filter_cons_of_neg (by simp [hx])]
      exact ih hnd.2 hmem2

lemma length_filter_not_id (nodes : List Node) (selId : String) (sel : Node)
    (hnd : (nodes.map Node.id).Nodup) (hmem : sel ∈ nodes) (hsid : sel.id = selId) :
    (nodes.filter (fun n => !(n.id == selId))).length + 1 = nodes.length := by
  induction nodes with
  | nil => cases hmem
  | cons x t ih =>
    rw [List.map_cons, List.nodup_cons] at hnd
    rcases List.mem_cons.1 hmem with rfl | hmem2
    · rw [List.filter_cons_of_neg (by simp [hsid])]
      have ht : t.filter (fun n => !(n.id == selId)) = t := by
        rw [List.filter_eq_self]
        intro n hn
        have : n.id ≠ selId := by
          intro h
          exact hnd.1 (by rw [hsid, ← h]; exact List.mem_map_of_mem Node.id hn)
        simp [this]
      rw [ht]
      simp
    · have hx : x.id ≠ selId := by
        intro h
        exact hnd.1 (by rw [h, ← hsid]; exact List.mem_map_of_mem Node.id hmem2)
      rw [List.filter_cons_of_pos (by simp [hx])]
      simp only [List.length_cons]
      rw [← ih hnd.2 hmem2]

lemma sum_ite_by_id (l : List Node) (selId : String) (a b : ℤ) :
    (l.map (fun n => if n.id == selId then a else b)).sum =
      a * ((l.filter (fun n => n.id == selId)).length : ℤ) +
      b * ((l.filter (fun n => !(n.id == selId))).length : ℤ) := by
  induction l with
  | nil => simp
  | cons x t ih =>
    by_cases h : (x.id == selId) = true
    · rw [List.map_cons, List.sum_cons,
        @List.filter_cons_of_pos Node (fun n => n.id == selId) x t h,
        @List.filter_cons_of_neg Node (fun n => !(n.id == selId)) x t (by simp [h]),
        if_pos h, ih]
      simp only [List.length_cons]
      push_cast
      ring
    · rw [List.map_cons, List.sum_cons,
        @List.filter_cons_of_neg Node (fun n => n.id == selId) x t h,
        @List.filter_cons_of_pos Node (fun n => !(n.id == selId)) x t (by simpa using h),
        if_neg h, ih]
      simp only [List.length_cons]
      push_cast
      ring

lemma jsRound_fifteen_percent_bounds (w : ℤ) (hw : 0 ≤ w) :
    0 ≤ jsRound ((w : ℚ) * (15 / 100)) ∧ jsRound ((w : ℚ) * (15 / 100)) ≤ w := by
  have hwq : (0 : ℚ) ≤ (w : ℚ) := by exact_mod_cast hw
  constructor
  · apply Int.le_floor.2
    push_cast
    linarith
  · have : jsRound ((w : ℚ) * (15 / 100)) < w + 1 := by
      apply Int.floor_lt.2
      push_cast
      linarith
    omega

lemma share_conservation (tm : ℤ) (K : ℕ) (hK : 1 ≤ K) :
    |(K : ℤ) * jsRound ((tm : ℚ) / (K : ℚ)) - tm| ≤ (K : ℤ) := by
  have hKQ : (0 : ℚ) < (K : ℚ) := by
    have : 0 < K := hK
    exact_mod_cast this
  have h1 : ((jsRound ((tm : ℚ) / (K : ℚ)) : ℤ) : ℚ) ≤ (tm : ℚ) / (K : ℚ) + 1 / 2 :=
    Int.floor_le ((tm : ℚ) / (K : ℚ) + 1 / 2)
  have h2 : (tm : ℚ) / (K : ℚ) + 1 / 2 < ((jsRound ((tm : ℚ) / (K : ℚ)) : ℤ) : ℚ) + 1 :=
    Int.lt_floor_add_one ((tm : ℚ) / (K : ℚ) + 1 / 2)
  have e : (tm : ℚ) / (K : ℚ) * (K : ℚ) = (tm : ℚ) := div_mul_cancel₀ _ (ne_of_gt hKQ)
  have hq1 : ((tm - K : ℤ) : ℚ) ≤ ((K * jsRound ((tm : ℚ) / (K : ℚ)) : ℤ) : ℚ) := by
    push_cast
    nlinarith [mul_le_mul_of_nonneg_left (le_of_lt h2) (le_of_lt hKQ)]
  have hq2 : ((K * jsRound ((tm : ℚ) / (K : ℚ)) : ℤ) : ℚ) ≤ ((tm + K : ℤ) : ℚ) := by
    push_cast
    nlinarith [mul_le_mul_of_nonneg_left h1 (le_of_lt hKQ)]
  have hz1 : (tm - K : ℤ) ≤ K * jsRound ((tm : ℚ) / (K : ℚ)) := by exact_mod_cast hq1
  have hz2 : (K * jsRound ((tm : ℚ) / (K : ℚ)) : ℤ) ≤ tm + K := by exact_mod_cast hq2
  rw [abs_le]
  omega

lemma redistribute_sum_change (nodes : List Node) (selId : String) (sel : Node)
    (hnd : (nodes.map Node.id).Nodup) (hmem : sel ∈ nodes) (hsid : sel.id = selId)
    (tm pr : ℤ) (htm_le : tm ≤ sw sel)
    (hnoclamp : ∀ n ∈ nodes, n.id ≠ selId → sw n + pr ≤ 200) :
    ((nodes.map (fun node =>
        if node.id == selId then
          { node with selection_weight := some (max minWeight (sw sel - tm)),
                      weight_change := some (max minWeight (sw sel - tm) - sw node) }
        else
          { node with selection_weight := some (min maxWeight (sw node + pr)),
                      weight_change := some (min maxWeight (sw node + pr) - sw node) })).map sw).sum
      - (nodes.map sw).sum
      = pr * ((nodes.filter (fun n => !(n.id == selId))).length : ℤ) - tm := by
  rw [List.map_map, sum_map_sub]
  have hcongr : List.map (fun n =>
      (sw ∘ fun node =>
        if node.id == selId then
          { node with selection_weight := some (max minWeight (sw sel - tm)),
                      weight_change := some (max minWeight (sw sel - tm) - sw node) }
        else
          { node with selection_weight := some (min maxWeight (sw node + pr)),
                      weight_change := some (min maxWeight (sw node + pr) - sw node) }) n - sw n)
      nodes = List.map (fun n => if n.id == selId then -tm else pr) nodes := by
    refine List.map_congr_left ?_
    intro n hn
    by_cases hc : (n.id == selId) = true
    · have hneq : n.id = selId := by simpa using hc
      have hn_eq : n = sel :=
        List.inj_on_of_nodup_map hnd hn hmem (by rw [hneq, hsid])
      subst hn_eq
      simp only [Function.comp, hc, if_pos, sw, Option.getD_some, minWeight]
      have h2 : tm ≤ n.selection_weight.getD 0 := htm_le
      omega
    · have hneq : n.id ≠ selId := by simpa using hc
      have hb : n.selection_weight.getD 0 + pr ≤ 200 := hnoclamp n hn hneq
      simp only [Function.comp]
      rw [if_neg hc, if_neg hc]
      simp only [sw, Option.getD_some, maxWeight]
      omega
  rw [hcongr, sum_ite_by_id, filter_id_single nodes selId sel hnd hmem hsid]
  simp only [List.length_cons, List.length_nil]
  push_cast
  ring

/-- C3 (amended): for a population with distinct ids containing the selected
topic, at least one other topic, a nonnegative selected weight, and no
receiving topic pushed past `MAX_WEIGHT` by its share (no clamping), the
total selection weight after `redistributeWeight` differs from the total
before by at most `N`, the candidate count.  When a receiver is clamped at
`MAX_WEIGHT` (or the population has no other topic), the loss can reach the
whole `toMove`, far beyond `±N` — see the counterexample. -/
theorem claim3_conservation :
    ∀ (nodes : List Node) (selectedNodeId : String) (sel : Node),
      (nodes.map Node.id).Nodup →
      sel ∈ nodes →
      sel.id = selectedNodeId →
      2 ≤ nodes.length →
      0 ≤ sw sel →
      (∀ n ∈ nodes, n.id ≠ selectedNodeId →
        sw n + jsRound ((jsRound ((sw sel : ℚ) * (15 / 100)) : ℚ) /
          ((nodes.filter (fun m => !(m.id == selectedNodeId))).length : ℚ)) ≤ 200) →
      |sumSW (redistributeWeight selectedNodeId nodes 15) - sumSW nodes| ≤ (nodes.length : ℤ) := by
  intro nodes selId sel hnd hmem hsid hlen hw hnc
  have hfind := find?_eq_of_nodup nodes selId sel hnd hmem hsid
  have hK1 := length_filter_not_id nodes selId sel hnd hmem hsid
  have htm := jsRound_fifteen_percent_bounds (sw sel) hw
  have hred : redistributeWeight selId nodes 15 =
      nodes.map (fun node =>
        if node.id == selId then
          { node with
              selection_weight :=
                some (max minWeight (sw sel - jsRound ((sw sel : ℚ) * (15 / 100)))),
              weight_change :=
                some (max minWeight (sw sel - jsRound ((sw sel : ℚ) * (15 / 100))) - sw node) }
        else
          { node with
              selection_weight :=
                some (min maxWeight (sw node + jsRound ((jsRound ((sw sel : ℚ) * (15 / 100)) : ℚ) /
                  ((nodes.filter (fun m => !(m.id == selId))).length : ℚ)))),
              weight_change :=
                some (min maxWeight (sw node + jsRound ((jsRound ((sw sel : ℚ) * (15 / 100)) : ℚ) /
                  ((nodes.filter (fun m => !(m.id == selId))).length : ℚ))) - sw node) }) := by
    simp only [redistributeWeight, hfind]
  rw [hred, sumSW_eq_sum_map, sumSW_eq_sum_map,
    redistribute_sum_change nodes selId sel hnd hmem hsid
      (jsRound ((sw sel : ℚ) * (15 / 100)))
      (jsRound ((jsRound ((sw sel : ℚ) * (15 / 100)) : ℚ) /
        ((nodes.filter (fun m => !(m.id == selId))).length : ℚ)))
      htm.2 hnc]
  have hKge : 1 ≤ (nodes.filter (fun m => !(m.id == selId))).length := by omega
  have hshare := share_conservation (jsRound ((sw sel : ℚ) * (15 / 100)))
    ((nodes.filter (fun m => !(m.id == selId))).length) hKge
  have hcast : (((nodes.filter (fun m => !(m.id == selId))).length : ℤ)) + 1 =
      (nodes.length : ℤ) := by exact_mod_cast hK1
  rw [abs_le] at hshare ⊢
  constructor <;> nlinarith [hshare.1, hshare.2]

/-- Witness for C3: for the population `[A(weight 100), B(weight 50)]` the
redistribution moves 15 points from A to B and the totals agree within the
candidate count 2. -/
theorem claim3_conservation_witness :
    |sumSW (redistributeWeight "a"
        [mkNode "a" "A" (some 100) none, mkNode "b" "B" (some 50) none] 15) -
      sumSW [mkNode "a" "A" (some 100) none, mkNode "b" "B" (some 50) none]| ≤
      (([mkNode "a" "A" (some 100) none, mkNode "b" "B" (some 50) none] : List Node).length : ℤ) := by
  refine claim3_conservation
    [mkNode "a" "A" (some 100) none, mkNode "b" "B" (some 50) none] "a"
    (mkNode "a" "A" (some 100) none) (by decide) (by decide) (by decide) (by decide)
    (by decide) ?_
  intro n hn hne
  rcases List.mem_cons.1 hn with rfl | hn2
  · exact absurd rfl hne
  · rcases List.mem_cons.1 hn2 with rfl | h3
    · norm_num +decide [mkNode, sw, jsRound, List.filter_cons, List.filter_nil]
    · exact absurd h3 (List.not_mem_nil n)

/-- Concrete input refuting the claimed tolerance: both topics sit at
`MAX_WEIGHT`, so the receiver is clamped and the whole moved weight is
lost. -/
def cxNodesC3 : List Node := [mkNode "a" "A" (some 200) none, mkNode "b" "B" (some 200) none]

/-- Counterexample for C3 as stated: redistributing from a weight-200 topic
to a single weight-200 receiver drops the total by 30, far more than the
claimed tolerance `N = 2`. -/
theorem claim3_conservation_counterexample :
    sumSW (redistributeWeight "a" cxNodesC3 15) - sumSW cxNodesC3 = -30 ∧
    ¬ (|sumSW (redistributeWeight "a" cxNodesC3 15) - sumSW cxNodesC3| ≤
        (cxNodesC3.length : ℤ)) := by
  have h1 : sumSW (redistributeWeight "a" cxNodesC3 15) = 370 := by
    norm_num +decide [redistributeWeight, cxNodesC3, mkNode, sw, sumSW, jsRound,
      List.find?, List.filter_cons, List.filter_nil, minWeight, maxWeight]
  have h2 : sumSW cxNodesC3 = 400 := by decide
  rw [h1, h2]
  norm_num [cxNodesC3]

end MicroLearn
